import Mathlib

/-!
A shallow embedding of the export pipeline of the AI-textbook-digitalizer
repository (`src/services/exportService.ts`, `src/utils/audioUtils.ts`) and of
the viewer runtime that `exportToZip` embeds into the generated `index.html`,
together with proofs about the claims of its specification.

JavaScript numbers are modelled by `Nat` where the code only ever holds
nonnegative integers (page numbers, byte values) and by `Rat` where the code
holds fractional values (zoom factors, pan offsets, playback rates); binary
blobs are modelled as lists of byte values together with their MIME type;
`null`-able values are modelled by `Option`; a thrown exception is modelled by
`Except.error` carrying the exception name.
-/

namespace Digitalizer

/-! ### JavaScript string primitives used by the export code -/

/-- Characters removed by the forgiving-base64 decode performed by `atob`
(ASCII whitespace: TAB, LF, FF, CR, SPACE). -/
def isB64Ws (c : Char) : Bool :=
  c = ' ' || c = '\t' || c = '\n' || c = '\r' || c = '\x0c'

/-- Value of a base64 alphabet character, `none` for a character outside the
alphabet. -/
def b64Val (c : Char) : Option Nat :=
  if 'A' ≤ c && c ≤ 'Z' then some (c.toNat - 65)
  else if 'a' ≤ c && c ≤ 'z' then some (c.toNat - 97 + 26)
  else if '0' ≤ c && c ≤ '9' then some (c.toNat - 48 + 52)
  else if c = '+' then some 62
  else if c = '/' then some 63
  else none

/-- Strip up to two trailing `=` padding characters, but only when the input
length is a multiple of four (forgiving-base64, step 2). -/
def stripPad (cs : List Char) : List Char :=
  if cs.length % 4 = 0 then
    match cs.reverse with
    | '=' :: '=' :: rest => rest.reverse
    | '=' :: rest => rest.reverse
    | _ => cs
  else cs

/-- Pack a list of 6-bit values into bytes; a trailing group of two or three
sextets yields one or two bytes, with the leftover low bits discarded
(forgiving-base64, final step). -/
def packSextets : List Nat → List Nat
  | a :: b :: c :: d :: rest =>
      (a * 4 + b / 16) :: ((b % 16) * 16 + c / 4) :: ((c % 4) * 64 + d) :: packSextets rest
  | [a, b] => [a * 4 + b / 16]
  | [a, b, c] => [a * 4 + b / 16, (b % 16) * 16 + c / 4]
  | _ => []

/-- The browser's `atob`, composed with the byte extraction loop
(`charCodeAt` over the returned binary string): WHATWG forgiving-base64
decode, returning the decoded bytes, or `none` when `atob` throws
`InvalidCharacterError`. -/
def atob (s : String) : Option (List Nat) :=
  let cs := (s.data.filter fun c => !isB64Ws c)
  let cs := stripPad cs
  if cs.length % 4 = 1 then none
  else (cs.mapM b64Val).map packSextets

/-- The function `decodeBase64` from `src/utils/audioUtils.ts`: `atob` followed by the
`charCodeAt` loop filling a `Uint8Array`.  `none` models the
`InvalidCharacterError` thrown by `atob` on malformed input. -/
def decodeBase64 (base64 : String) : Option (List Nat) := atob base64

/-- Split a character list at every occurrence of `sep`, keeping empty
pieces, accumulating the current piece in reverse. -/
def jsSplitAux (sep : Char) : List Char → List Char → List String
  | [], acc => [String.mk acc.reverse]
  | c :: cs, acc =>
      if c = sep then String.mk acc.reverse :: jsSplitAux sep cs []
      else jsSplitAux sep cs (c :: acc)

/-- JavaScript `String.prototype.split` with a single-character separator, as
used by `dataURItoBlob` (`split(',')`, `split(':')`, `split(';')`):
`"a,b".split(',') = ["a","b"]`, `"abc".split(',') = ["abc"]`,
`"".split(',') = [""]`. -/
def jsSplit (s : String) (sep : Char) : List String := jsSplitAux sep s.data []

/-- A JavaScript `Blob`: binary content plus MIME type. -/
structure Blob where
  data : List Nat
  mimeType : String
deriving DecidableEq, Repr

/-- Decidable equality for `Except` values, used to evaluate concrete export
runs. -/
instance {ε α : Type} [DecidableEq ε] [DecidableEq α] : DecidableEq (Except ε α) := fun a b =>
  match a, b with
  | .error e, .error f =>
      match decEq e f with
      | isTrue h => isTrue (by rw [h])
      | isFalse h => isFalse (by simp [h])
  | .error _, .ok _ => isFalse (by simp)
  | .ok _, .error _ => isFalse (by simp)
  | .ok v, .ok w =>
      match decEq v w with
      | isTrue h => isTrue (by rw [h])
      | isFalse h => isFalse (by simp [h])

/-- The function `dataURItoBlob` from `src/services/exportService.ts`.
`dataURI.split(',')[1]` is `undefined` when the string holds no comma, and
`atob(undefined)` coerces its argument to the nine-character string
`"undefined"`, which fails to decode; this coercion is modelled by
`List.getD 1 "undefined"`.  `parts[0].split(':')[1]` is `undefined` when the
metadata holds no colon, and `undefined.split(';')` throws a `TypeError`. -/
def dataURItoBlob (dataURI : String) : Except String Blob :=
  let parts := jsSplit dataURI ','
  match atob (parts.getD 1 "undefined") with
  | none => .error "InvalidCharacterError"
  | some byteString =>
    match (jsSplit (parts.getD 0 "") ':')[1]? with
    | none => .error "TypeError"
    | some afterColon =>
        .ok { data := byteString, mimeType := (jsSplit afterColon ';').getD 0 "" }

/-- Digits of a positive integer, most significant first; `fuel` bounds the
recursion and is in every use at least the number being converted. -/
def decAux : Nat → Nat → List Char
  | 0, _ => []
  | fuel + 1, n => if n = 0 then [] else decAux fuel (n / 10) ++ [Nat.digitChar (n % 10)]

/-- ECMAScript `ToString` applied to a nonnegative integer, as performed by the
template literal `` `p${p.pageNumber}` ``: the decimal digit string. -/
def jsNumToString (n : Nat) : String :=
  if n = 0 then "0" else String.mk (decAux (n + 1) n)

/-- The numeric value of a decimal digit string, used to verify the asset
naming scheme: reading the digits of `jsNumToString n` back yields `n`. -/
def charsVal (cs : List Char) : Nat :=
  cs.foldl (fun a c => 10 * a + (c.toNat - 48)) 0

/-- JavaScript truthiness of a `string | null` value: `null` and the empty
string are falsy. -/
def jsStrTruthy : Option String → Bool
  | none => false
  | some s => !(s == "")

/-! ### The data model (`src/types.ts`) -/

/-- The structure `PageData` from `src/types.ts`.  Audio/video blobs are in-memory binary
handles (`Blob | null`); `storyboardImage` is a data-URI string (`string |
null`). -/
structure PageData where
  id : String
  pageNumber : Nat
  imageBase64 : String
  aiAnalysis : String
  extractedText : String
  imageDescription : String
  isContentConfirmed : Bool
  teacherScript : String
  teacherAudioBlob : Option Blob
  teacherVoice : String
  teacherAudioSpeed : Rat
  includeTeacherAudio : Bool
  storyboardPrompt : String
  storyboardImage : Option String
  includeStoryboard : Bool
  videoPrompt : String
  videoBlob : Option Blob
  videoResolution : String
  includeVideo : Bool
  dialogueScript : String
  dialogueAudioBlob : Option Blob
  dialogueSpeed : Rat
  includeDialogueAudio : Bool
deriving DecidableEq, Repr

/-- The structure `CourseData` from `src/types.ts`. -/
structure CourseData where
  id : String
  title : String
  context : String
  globalAnalysis : String
  isAnalysisConfirmed : Bool
  pages : List PageData
deriving DecidableEq, Repr

/-! ### The export pipeline (`exportToZip` in `src/services/exportService.ts`)

`exportToZip` builds a JSZip archive: an `assets` folder receiving one file
per bundled media item, plus an `index.html` whose content is a fixed template
instantiated with the course title and `JSON.stringify(exportData)`.  The
archive is modelled by the list of asset entries (full path inside the zip,
content) in the order the code registers them, together with the `exportData`
value; `index.html` is a pure function of `exportData`, and the final
`generateAsync`/download steps only serialize the archive.  A rejection of the
`Promise.all` is modelled by `Except.error`; in that case `generateAsync` is
never reached and no archive is produced. -/

/-- The per-page record returned to the HTML player (the object literal ending
`exportToZip`'s page callback).  `extractedText` and `imageDescription` are
deliberately absent, as in the source. -/
structure ExportedPage where
  pageNumber : Nat
  imagePath : String
  teacherAudioPath : Option String
  storyboardPath : Option String
  videoPath : Option String
  dialogueAudioPath : Option String
deriving DecidableEq, Repr

/-- The `exportData` value serialized into the generated document. -/
structure ExportData where
  title : String
  pages : List ExportedPage
deriving DecidableEq, Repr

/-- The generated zip: asset entries (path under `assets/`, blob) in
registration order, plus the data embedded in `index.html`. -/
structure ZipArchive where
  assetEntries : List (String × Blob)
  exportData : ExportData
deriving DecidableEq, Repr

/-- The `p${p.pageNumber}` stem shared by all of a page's asset names. -/
def pageStemOf (p : PageData) : String := "p" ++ jsNumToString p.pageNumber

/-- One optional blob-backed slot (teacher audio, video, dialogue audio):
`if (p.includeX && p.xBlob) { assets.file(name, blob); path = "assets/…"; }`.
Returns the asset entries the branch registers and the exported path. -/
def optSlotEntry (flag : Bool) (content : Option Blob) (path : String) :
    List (String × Blob) × Option String :=
  match flag, content with
  | true, some b => ([(path, b)], some path)
  | _, _ => ([], none)

/-- The storyboard slot: `if (p.includeStoryboard && p.storyboardImage)` the
data-URI is decoded by `dataURItoBlob`, whose exception propagates out of the
page callback (there is no try/catch around it). -/
def storyboardSlot (p : PageData) (path : String) :
    Except String (List (String × Blob) × Option String) :=
  if p.includeStoryboard && jsStrTruthy p.storyboardImage then
    match dataURItoBlob (p.storyboardImage.getD "") with
    | .error e => .error e
    | .ok sbBlob => .ok ([(path, sbBlob)], some path)
  else .ok ([], none)

/-- The body of the `course.pages.map(async (p) => …)` callback: decode the
required base image (fatal on failure), register the optional slots, and
return the per-page asset entries in registration order together with the
exported page record. -/
def processPage (p : PageData) : Except String (List (String × Blob) × ExportedPage) :=
  match decodeBase64 p.imageBase64 with
  | none => .error "InvalidCharacterError"
  | some imgBytes =>
    match storyboardSlot p ("assets/" ++ pageStemOf p ++ "_storyboard.png") with
    | .error e => .error e
    | .ok (storyboardEntries, storyboardPath) =>
      let mainPath := "assets/" ++ pageStemOf p ++ "_main.jpg"
      let (teacherEntries, teacherAudioPath) :=
        optSlotEntry p.includeTeacherAudio p.teacherAudioBlob
          ("assets/" ++ pageStemOf p ++ "_teacher.wav")
      let (videoEntries, videoPath) :=
        optSlotEntry p.includeVideo p.videoBlob
          ("assets/" ++ pageStemOf p ++ "_video.mp4")
      let (dialogueEntries, dialogueAudioPath) :=
        optSlotEntry p.includeDialogueAudio p.dialogueAudioBlob
          ("assets/" ++ pageStemOf p ++ "_dialogue.wav")
      .ok ((mainPath, ⟨imgBytes, "image/jpeg"⟩) ::
             (teacherEntries ++ storyboardEntries ++ videoEntries ++ dialogueEntries),
           { pageNumber := p.pageNumber
             imagePath := mainPath
             teacherAudioPath := teacherAudioPath
             storyboardPath := storyboardPath
             videoPath := videoPath
             dialogueAudioPath := dialogueAudioPath })

/-- The call `Promise.all(course.pages.map(async (p) => …))`: the page callbacks hold
no `await`, so each runs to completion in array order; the combined promise
rejects with the first page failure, otherwise resolves to the per-page
results in page order. -/
def processPages : List PageData → Except String (List (List (String × Blob) × ExportedPage))
  | [] => .ok []
  | p :: ps =>
    match processPage p with
    | .error e => .error e
    | .ok r =>
      match processPages ps with
      | .error e => .error e
      | .ok rs => .ok (r :: rs)

/-- The function `exportToZip` from `src/services/exportService.ts`. -/
def exportToZip (course : CourseData) : Except String ZipArchive :=
  match processPages course.pages with
  | .error e => .error e
  | .ok results =>
      .ok { assetEntries := (results.map Prod.fst).flatten
            exportData := { title := course.title, pages := results.map Prod.snd } }

/-! ### Derived vocabulary for the claims -/

/-- A blob-backed slot's content resolves exactly when the in-memory handle is
present. -/
def blobResolves (content : Option Blob) : Bool := content.isSome

/-- The storyboard slot's content resolves when the data-URI string is present
and `dataURItoBlob` decodes it successfully.  (The empty string never
decodes: `dataURItoBlob ""` throws.) -/
def storyboardResolves (content : Option String) : Bool :=
  match content with
  | none => false
  | some s => (dataURItoBlob s).toOption.isSome

/-- The asset names `exportToZip` assigns to one page, in registration order:
the required main image plus each bundled optional slot. -/
def pageAssetNames (p : PageData) : List String :=
  ("assets/" ++ pageStemOf p ++ "_main.jpg") ::
    ((if p.includeTeacherAudio && p.teacherAudioBlob.isSome then
        ["assets/" ++ pageStemOf p ++ "_teacher.wav"] else []) ++
     (if p.includeStoryboard && jsStrTruthy p.storyboardImage then
        ["assets/" ++ pageStemOf p ++ "_storyboard.png"] else []) ++
     (if p.includeVideo && p.videoBlob.isSome then
        ["assets/" ++ pageStemOf p ++ "_video.mp4"] else []) ++
     (if p.includeDialogueAudio && p.dialogueAudioBlob.isSome then
        ["assets/" ++ pageStemOf p ++ "_dialogue.wav"] else []))

/-- Two pages that agree on every field except the free-text fields
`extractedText` and `imageDescription`. -/
def SamePageUpToFreeText (p q : PageData) : Prop :=
  p.id = q.id ∧ p.pageNumber = q.pageNumber ∧ p.imageBase64 = q.imageBase64
    ∧ p.aiAnalysis = q.aiAnalysis ∧ p.isContentConfirmed = q.isContentConfirmed
    ∧ p.teacherScript = q.teacherScript ∧ p.teacherAudioBlob = q.teacherAudioBlob
    ∧ p.teacherVoice = q.teacherVoice ∧ p.teacherAudioSpeed = q.teacherAudioSpeed
    ∧ p.includeTeacherAudio = q.includeTeacherAudio
    ∧ p.storyboardPrompt = q.storyboardPrompt ∧ p.storyboardImage = q.storyboardImage
    ∧ p.includeStoryboard = q.includeStoryboard
    ∧ p.videoPrompt = q.videoPrompt ∧ p.videoBlob = q.videoBlob
    ∧ p.videoResolution = q.videoResolution ∧ p.includeVideo = q.includeVideo
    ∧ p.dialogueScript = q.dialogueScript ∧ p.dialogueAudioBlob = q.dialogueAudioBlob
    ∧ p.dialogueSpeed = q.dialogueSpeed ∧ p.includeDialogueAudio = q.includeDialogueAudio

instance (p q : PageData) : Decidable (SamePageUpToFreeText p q) := by
  unfold SamePageUpToFreeText
  infer_instance

/-- The data a page's asset-path assignment depends on: its page number and
which of the five slots is bundled. -/
def pageShape (p : PageData) : Nat × Bool × Bool × Bool × Bool :=
  (p.pageNumber,
   p.includeTeacherAudio && p.teacherAudioBlob.isSome,
   p.includeStoryboard && jsStrTruthy p.storyboardImage,
   p.includeVideo && p.videoBlob.isSome,
   p.includeDialogueAudio && p.dialogueAudioBlob.isSome)

/-! ### The embedded viewer runtime (the `<script>` in the generated html)

The runtime's module-level state is `currentPageIndex`, `currentZoom`,
`panX`, `panY`, the high-contrast class on `body`, the two navigation
buttons' `disabled` properties, and the rendered page card in `#app`
(`appEl.innerHTML`).  A rendered card carries, per audio element present, its
`playbackRate` and the `active` class of its three speed buttons, and the
drag-gesture variables local to the `renderPage` closure (`isDragging`,
`startX`, `startY`).  Mouse events reach only the currently rendered card's
listeners: replacing `innerHTML` destroys the old container, and stale window
`mouseup` listeners only clear their own dead closure's flag. -/

/-- One audio element of the rendered page: its `playbackRate` and which of
its three speed buttons (0.75 / 1.0 / 1.25) carry the `active` class. -/
structure AudioComp where
  rate : Rat
  actSlow : Bool
  actNormal : Bool
  actFast : Bool
deriving DecidableEq, Repr

/-- A freshly rendered audio element: default playback rate 1, the `active`
class on the middle (`عادی`, 1.0) button, as in the template. -/
def initAudio : AudioComp := { rate := 1, actSlow := false, actNormal := true, actFast := false }

/-- The two audio elements the template can emit. -/
inductive AudioKind
  | teacher
  | dialogue
deriving DecidableEq, Repr

/-- The card markup `renderPage` writes into `#app`, with the per-render drag
closure state. -/
structure RenderedCard where
  page : ExportedPage
  teacher : Option AudioComp
  dialogue : Option AudioComp
  dragging : Bool
  startX : Rat
  startY : Rat
deriving DecidableEq, Repr

/-- Build the card for a page: an audio section (with its speed buttons) is
emitted iff the corresponding path is truthy (`${page.teacherAudioPath ? … }`);
the drag closure starts with `isDragging = false`. -/
def mkCard (page : ExportedPage) : RenderedCard :=
  { page := page
    teacher := if jsStrTruthy page.teacherAudioPath then some initAudio else none
    dialogue := if jsStrTruthy page.dialogueAudioPath then some initAudio else none
    dragging := false
    startX := 0
    startY := 0 }

/-- The viewer's mutable state. -/
structure ViewerState where
  currentPageIndex : Nat
  currentZoom : Rat
  panX : Rat
  panY : Rat
  highContrast : Bool
  prevDisabled : Bool
  nextDisabled : Bool
  displayed : Option RenderedCard
deriving DecidableEq, Repr

/-- State at script start: page index 0, zoom 1, no pan, no contrast class,
both buttons enabled (the HTML declares them without `disabled`), empty
`#app`. -/
def initState : ViewerState :=
  { currentPageIndex := 0, currentZoom := 1, panX := 0, panY := 0
    highContrast := false, prevDisabled := false, nextDisabled := false
    displayed := none }

/-- The function `renderPage(index)` from the embedded script: reset zoom and pan first;
if `DATA.pages[index]` is `undefined`, return (leaving the markup and the
buttons untouched); otherwise replace the card and set the buttons'
`disabled` flags. -/
def renderPage (d : ExportData) (index : Nat) (s : ViewerState) : ViewerState :=
  let s := { s with currentZoom := 1, panX := 0, panY := 0 }
  match d.pages[index]? with
  | none => s
  | some page =>
      { s with displayed := some (mkCard page)
               prevDisabled := index == 0
               nextDisabled := index == d.pages.length - 1 }

/-- Read an audio element of the rendered card by id. -/
def getComp (card : RenderedCard) : AudioKind → Option AudioComp
  | .teacher => card.teacher
  | .dialogue => card.dialogue

/-- Replace an audio element of the rendered card. -/
def setComp (card : RenderedCard) : AudioKind → AudioComp → RenderedCard
  | .teacher, a => { card with teacher := some a }
  | .dialogue, a => { card with dialogue := some a }

/-- The playback rate the speed button at position `i` passes to `setSpeed`
(`0.75`, `1.0`, `1.25`). -/
def rateOf : Fin 3 → Rat
  | 0 => 0.75
  | 1 => 1
  | 2 => 1.25

/-- The handler `window.setSpeed(audioId, rate, btn)`: if `getElementById(audioId)` finds
the audio element, set its `playbackRate`, strip `active` from all of the
clicked button's siblings and add it to the clicked button.  The buttons of
kind `k` exist only inside kind `k`'s own `speed-controls` div, so the
affected control group is the one belonging to `audioId`. -/
def setSpeed (s : ViewerState) (k : AudioKind) (i : Fin 3) : ViewerState :=
  match s.displayed with
  | none => s
  | some card =>
    match getComp card k with
    | none => s
    | some _ =>
        { s with displayed := some (setComp card k
            { rate := rateOf i
              actSlow := i == 0
              actNormal := i == 1
              actFast := i == 2 }) }

/-- The user interactions the embedded script listens for. -/
inductive VEvent
  | clickPrev
  | clickNext
  | zoomIn
  | zoomOut
  | resetZoom
  | toggleContrast
  | speedBtn (k : AudioKind) (i : Fin 3)
  | mouseDown (x y : Rat)
  | mouseMove (x y : Rat)
  | mouseUp
deriving DecidableEq, Repr

/-- One step of the embedded viewer: the event handlers of the script. -/
def viewerStep (d : ExportData) (s : ViewerState) : VEvent → ViewerState
  | .clickPrev =>
      if 0 < s.currentPageIndex then
        let s' := { s with currentPageIndex := s.currentPageIndex - 1 }
        renderPage d s'.currentPageIndex s'
      else s
  | .clickNext =>
      if s.currentPageIndex < d.pages.length - 1 then
        let s' := { s with currentPageIndex := s.currentPageIndex + 1 }
        renderPage d s'.currentPageIndex s'
      else s
  | .zoomIn => { s with currentZoom := s.currentZoom + 0.2 }
  | .zoomOut => { s with currentZoom := max 1 (s.currentZoom - 0.2) }
  | .resetZoom => { s with currentZoom := 1, panX := 0, panY := 0 }
  | .toggleContrast => { s with highContrast := !s.highContrast }
  | .speedBtn k i => setSpeed s k i
  | .mouseDown x y =>
      match s.displayed with
      | none => s
      | some card =>
          if 1 < s.currentZoom then
            let card' := { card with dragging := true, startX := x - s.panX, startY := y - s.panY }
            { s with displayed := some card' }
          else s
  | .mouseMove x y =>
      match s.displayed with
      | none => s
      | some card =>
          if card.dragging then { s with panX := x - card.startX, panY := y - card.startY }
          else s
  | .mouseUp =>
      match s.displayed with
      | none => s
      | some card => { s with displayed := some ({ card with dragging := false }) }

/-- The state after the script's last line, `renderPage(0)`. -/
def initViewer (d : ExportData) : ViewerState := renderPage d 0 initState

/-- The viewer state reached from startup by a sequence of interactions. -/
def runViewer (d : ExportData) (evs : List VEvent) : ViewerState :=
  evs.foldl (viewerStep d) (initViewer d)

/-! ### Concrete inputs used by the witnesses and counterexamples -/

/-- A page exercising all four slot states: teacher audio included and
present, storyboard included with a decodable data-URI, video included but
its blob absent, dialogue audio present but not included. -/
def demoPage1 : PageData :=
  { id := "1", pageNumber := 1, imageBase64 := "AAAA"
    aiAnalysis := "", extractedText := "text one", imageDescription := "desc one"
    isContentConfirmed := true
    teacherScript := "", teacherAudioBlob := some ⟨[1, 2], "audio/wav"⟩
    teacherVoice := "Kore", teacherAudioSpeed := 1, includeTeacherAudio := true
    storyboardPrompt := "", storyboardImage := some "data:image/png;base64,AAAA"
    includeStoryboard := true
    videoPrompt := "", videoBlob := none, videoResolution := "720p", includeVideo := true
    dialogueScript := "", dialogueAudioBlob := some ⟨[9], "audio/wav"⟩
    dialogueSpeed := 1, includeDialogueAudio := false }

/-- A second page: teacher audio included but absent, storyboard included but
`null`, video and dialogue audio included and present. -/
def demoPage2 : PageData :=
  { id := "2", pageNumber := 2, imageBase64 := ""
    aiAnalysis := "", extractedText := "text two", imageDescription := "desc two"
    isContentConfirmed := false
    teacherScript := "", teacherAudioBlob := none
    teacherVoice := "Kore", teacherAudioSpeed := 1, includeTeacherAudio := true
    storyboardPrompt := "", storyboardImage := none, includeStoryboard := true
    videoPrompt := "", videoBlob := some ⟨[7, 7], "video/mp4"⟩
    videoResolution := "720p", includeVideo := true
    dialogueScript := "", dialogueAudioBlob := some ⟨[5], "audio/wav"⟩
    dialogueSpeed := 1, includeDialogueAudio := true }

/-- A two-page course whose export succeeds. -/
def demoCourse : CourseData :=
  { id := "c", title := "Course", context := "", globalAnalysis := ""
    isAnalysisConfirmed := true, pages := [demoPage1, demoPage2] }

/-- The exported record of `demoPage1`. -/
def demoEP1 : ExportedPage :=
  { pageNumber := 1, imagePath := "assets/p1_main.jpg"
    teacherAudioPath := some "assets/p1_teacher.wav"
    storyboardPath := some "assets/p1_storyboard.png"
    videoPath := none, dialogueAudioPath := none }

/-- The exported record of `demoPage2`. -/
def demoEP2 : ExportedPage :=
  { pageNumber := 2, imagePath := "assets/p2_main.jpg"
    teacherAudioPath := none, storyboardPath := none
    videoPath := some "assets/p2_video.mp4"
    dialogueAudioPath := some "assets/p2_dialogue.wav" }

/-- The archive `exportToZip demoCourse` produces. -/
def demoArch : ZipArchive :=
  { assetEntries := [("assets/p1_main.jpg", ⟨[0, 0, 0], "image/jpeg"⟩),
      ("assets/p1_teacher.wav", ⟨[1, 2], "audio/wav"⟩),
      ("assets/p1_storyboard.png", ⟨[0, 0, 0], "image/png"⟩),
      ("assets/p2_main.jpg", ⟨[], "image/jpeg"⟩),
      ("assets/p2_video.mp4", ⟨[7, 7], "video/mp4"⟩),
      ("assets/p2_dialogue.wav", ⟨[5], "audio/wav"⟩)]
    exportData := { title := "Course", pages := [demoEP1, demoEP2] } }

/-- The embedded `DATA` value of the demo export, driving the viewer. -/
def demoData : ExportData := { title := "Course", pages := [demoEP1, demoEP2] }

/-- A copy of `demoPage1` with different free-text fields, for the privacy claim. -/
def demoPage1Alt : PageData :=
  { demoPage1 with extractedText := "other text", imageDescription := "other desc" }

/-- A copy of `demoCourse` with different free-text fields on its first page. -/
def demoCourseAlt : CourseData :=
  { demoCourse with pages := [demoPage1Alt, demoPage2] }

/-- A page whose base image decodes but whose included storyboard data-URI is
present yet malformed (`!!!` is not base64). -/
def badStoryboardPage : PageData :=
  { demoPage1 with imageBase64 := ""
                   teacherAudioBlob := none
                   storyboardImage := some "data:image/png;base64,!!!"
                   dialogueAudioBlob := none }

/-- A course whose only problem is a malformed storyboard data-URI on an
included storyboard slot. -/
def badStoryboardCourse : CourseData :=
  { demoCourse with pages := [badStoryboardPage] }

/-- A course whose first page's base image cannot be decoded. -/
def badBaseCourse : CourseData :=
  { demoCourse with pages := [{ demoPage1 with imageBase64 := "!!!" }, demoPage2] }

/-- A viewer document with no pages (export of an empty course). -/
def emptyData : ExportData := { title := "empty", pages := [] }

/-- A viewer state with a zoomed, panned view, as reached by `zoomIn` and a
drag. -/
def zoomedState : ViewerState :=
  { currentPageIndex := 0, currentZoom := 2, panX := 3, panY := 0
    highContrast := false, prevDisabled := true, nextDisabled := true
    displayed := some (mkCard demoEP1) }

/-! ### Lemmas about the page processing step -/

theorem optSlotEntry_names (flag : Bool) (content : Option Blob) (path : String) :
    (optSlotEntry flag content path).1.map Prod.fst =
      if flag && content.isSome then [path] else [] := by
  cases flag <;> cases content <;> simp [optSlotEntry]

theorem optSlotEntry_path (flag : Bool) (content : Option Blob) (path : String) :
    (optSlotEntry flag content path).2 =
      if flag && content.isSome then some path else none := by
  cases flag <;> cases content <;> simp [optSlotEntry]

theorem storyboardSlot_ok (p : PageData) (path : String) (es : List (String × Blob))
    (sp : Option String) (h : storyboardSlot p path = .ok (es, sp)) :
    sp = (if p.includeStoryboard && jsStrTruthy p.storyboardImage then some path else none)
      ∧ es.map Prod.fst =
          (if p.includeStoryboard && jsStrTruthy p.storyboardImage then [path] else []) := by
  unfold storyboardSlot at h
  by_cases hc : (p.includeStoryboard && jsStrTruthy p.storyboardImage) = true
  · rw [if_pos hc] at h
    cases hdb : dataURItoBlob (p.storyboardImage.getD "") with
    | error e => rw [hdb] at h; exact absurd h (by simp)
    | ok b =>
      rw [hdb] at h
      simp only [Except.ok.injEq, Prod.mk.injEq] at h
      simp [← h.1, ← h.2, hc]
  · rw [if_neg hc] at h
    simp only [Except.ok.injEq, Prod.mk.injEq] at h
    simp [← h.1, ← h.2, hc]

theorem storyboardSlot_error (p : PageData) (path : String) :
    (∃ e, storyboardSlot p path = .error e) ↔
      (p.includeStoryboard && jsStrTruthy p.storyboardImage) = true
        ∧ ∃ e, dataURItoBlob (p.storyboardImage.getD "") = .error e := by
  unfold storyboardSlot
  by_cases hc : (p.includeStoryboard && jsStrTruthy p.storyboardImage) = true
  · rw [if_pos hc]
    cases hdb : dataURItoBlob (p.storyboardImage.getD "") with
    | error e => simp [hc]
    | ok b => simp [hc]
  · rw [if_neg hc]
    simp [hc]

theorem processPage_ok (p : PageData) (es : List (String × Blob)) (ep : ExportedPage)
    (h : processPage p = .ok (es, ep)) :
    ep.pageNumber = p.pageNumber
    ∧ ep.imagePath = "assets/" ++ pageStemOf p ++ "_main.jpg"
    ∧ ep.teacherAudioPath =
        (if p.includeTeacherAudio && p.teacherAudioBlob.isSome then
          some ("assets/" ++ pageStemOf p ++ "_teacher.wav") else none)
    ∧ ep.storyboardPath =
        (if p.includeStoryboard && jsStrTruthy p.storyboardImage then
          some ("assets/" ++ pageStemOf p ++ "_storyboard.png") else none)
    ∧ ep.videoPath =
        (if p.includeVideo && p.videoBlob.isSome then
          some ("assets/" ++ pageStemOf p ++ "_video.mp4") else none)
    ∧ ep.dialogueAudioPath =
        (if p.includeDialogueAudio && p.dialogueAudioBlob.isSome then
          some ("assets/" ++ pageStemOf p ++ "_dialogue.wav") else none)
    ∧ es.map Prod.fst = pageAssetNames p := by
  unfold processPage at h
  cases hdec : decodeBase64 p.imageBase64 with
  | none => rw [hdec] at h; exact absurd h (by simp)
  | some imgBytes =>
    rw [hdec] at h
    cases hsb : storyboardSlot p ("assets/" ++ pageStemOf p ++ "_storyboard.png") with
    | error e => rw [hsb] at h; exact absurd h (by simp)
    | ok r =>
      obtain ⟨sbEs, sbPath⟩ := r
      have hsbc := storyboardSlot_ok p _ sbEs sbPath hsb
      rw [hsb] at h
      simp only [Except.ok.injEq, Prod.mk.injEq] at h
      obtain ⟨hes, hep⟩ := h
      subst hes hep
      refine ⟨rfl, rfl, ?_, ?_, ?_, ?_, ?_⟩
      · exact optSlotEntry_path ..
      · exact hsbc.1
      · exact optSlotEntry_path ..
      · exact optSlotEntry_path ..
      · simp only [pageAssetNames, List.map_cons, List.map_append,
          optSlotEntry_names, hsbc.2]

theorem processPage_error_iff (p : PageData) :
    (∃ e, processPage p = .error e) ↔
      decodeBase64 p.imageBase64 = none
        ∨ ((p.includeStoryboard && jsStrTruthy p.storyboardImage) = true
            ∧ ∃ e, dataURItoBlob (p.storyboardImage.getD "") = .error e) := by
  unfold processPage
  cases hdec : decodeBase64 p.imageBase64 with
  | none => simp
  | some imgBytes =>
    simp only [Option.some.injEq, reduceCtorEq, false_or]
    cases hsb : storyboardSlot p ("assets/" ++ pageStemOf p ++ "_storyboard.png") with
    | error e =>
      have : ∃ e, storyboardSlot p ("assets/" ++ pageStemOf p ++ "_storyboard.png") = .error e :=
        ⟨e, hsb⟩
      rw [storyboardSlot_error] at this
      simp only [hsb]
      simpa using this
    | ok r =>
      obtain ⟨sbEs, sbPath⟩ := r
      have hne : ¬ ((p.includeStoryboard && jsStrTruthy p.storyboardImage) = true
          ∧ ∃ e, dataURItoBlob (p.storyboardImage.getD "") = .error e) := by
        rw [← storyboardSlot_error p ("assets/" ++ pageStemOf p ++ "_storyboard.png")]
        simp [hsb]
      simp only [hsb]
      constructor
      · rintro ⟨e, he⟩; exact absurd he (by simp)
      · rintro ⟨h1, e, he⟩; exact absurd ⟨h1, e, he⟩ hne

/-! ### String facts about the asset naming scheme -/

theorem stringDataInj {a b : String} (h : a.data = b.data) : a = b := by
  cases a; cases b; exact congrArg String.mk h

theorem appendNe (a : String) {s t : String} (h : s ≠ t) : a ++ s ≠ a ++ t := by
  intro he
  apply h
  apply stringDataInj
  have := congrArg String.data he
  rw [String.data_append, String.data_append] at this
  exact List.append_cancel_left this

/-- Membership in one of the conditional singleton blocks of
`pageAssetNames`. -/
theorem mem_ite_singleton {α : Type} (x a : α) (c : Bool) :
    x ∈ (if c = true then [a] else []) ↔ c = true ∧ x = a := by
  cases c <;> simp

/-- Membership in a page's asset-name list, element by element. -/
theorem mem_pageAssetNames (p : PageData) (x : String) :
    x ∈ pageAssetNames p ↔
      x = "assets/" ++ pageStemOf p ++ "_main.jpg"
      ∨ ((p.includeTeacherAudio && p.teacherAudioBlob.isSome) = true
          ∧ x = "assets/" ++ pageStemOf p ++ "_teacher.wav")
      ∨ ((p.includeStoryboard && jsStrTruthy p.storyboardImage) = true
          ∧ x = "assets/" ++ pageStemOf p ++ "_storyboard.png")
      ∨ ((p.includeVideo && p.videoBlob.isSome) = true
          ∧ x = "assets/" ++ pageStemOf p ++ "_video.mp4")
      ∨ ((p.includeDialogueAudio && p.dialogueAudioBlob.isSome) = true
          ∧ x = "assets/" ++ pageStemOf p ++ "_dialogue.wav") := by
  simp only [pageAssetNames, List.mem_cons, List.mem_append, mem_ite_singleton]
  tauto

/-! ### The decimal digit string of a page number determines the number -/

theorem digitChar_val : ∀ d, d < 10 → (Nat.digitChar d).toNat = 48 + d := by decide

theorem digitChar_isDigit : ∀ d, d < 10 → (Nat.digitChar d).isDigit = true := by decide

theorem charsVal_concat (xs : List Char) (x : Char) :
    charsVal (xs ++ [x]) = 10 * charsVal xs + (x.toNat - 48) := by
  unfold charsVal
  rw [List.foldl_append]
  rfl

theorem decAux_val : ∀ fuel n, n ≤ fuel → charsVal (decAux fuel n) = n := by
  intro fuel
  induction fuel with
  | zero =>
    intro n hn
    have : n = 0 := by omega
    subst this
    rfl
  | succ f ih =>
    intro n hn
    by_cases h0 : n = 0
    · subst h0; rfl
    · have hdiv : n / 10 ≤ f := by
        have : n / 10 < n := Nat.div_lt_self (Nat.pos_of_ne_zero h0) (by norm_num)
        omega
      have hmod : (Nat.digitChar (n % 10)).toNat = 48 + n % 10 :=
        digitChar_val _ (Nat.mod_lt _ (by norm_num))
      simp only [decAux, if_neg h0]
      rw [charsVal_concat, ih (n / 10) hdiv, hmod]
      omega

theorem decAux_isDigit : ∀ fuel n, ∀ c ∈ decAux fuel n, c.isDigit = true := by
  intro fuel
  induction fuel with
  | zero => intro n c hc; simp [decAux] at hc
  | succ f ih =>
    intro n c hc
    by_cases h0 : n = 0
    · rw [h0] at hc; simp [decAux] at hc
    · simp only [decAux, if_neg h0, List.mem_append, List.mem_singleton] at hc
      rcases hc with hc | hc
      · exact ih _ c hc
      · subst hc; exact digitChar_isDigit _ (Nat.mod_lt _ (by norm_num))

theorem jsNumToString_val (n : Nat) : charsVal (jsNumToString n).data = n := by
  unfold jsNumToString
  by_cases h0 : n = 0
  · subst h0; rfl
  · rw [if_neg h0]
    exact decAux_val (n + 1) n (by omega)

theorem jsNumToString_isDigit (n : Nat) : ∀ c ∈ (jsNumToString n).data, c.isDigit = true := by
  unfold jsNumToString
  by_cases h0 : n = 0
  · subst h0
    intro c hc
    rw [if_pos rfl] at hc
    have hd : ("0" : String).data = ['0'] := rfl
    rw [hd, List.mem_singleton] at hc
    subst hc
    rfl
  · rw [if_neg h0]
    exact fun c hc => decAux_isDigit (n + 1) n c hc

theorem jsNumToString_data_inj {n m : Nat}
    (h : (jsNumToString n).data = (jsNumToString m).data) : n = m := by
  have hv := congrArg charsVal h
  rwa [jsNumToString_val, jsNumToString_val] at hv

/-- A run of digit characters followed by an underscore-headed tail is
decomposed uniquely. -/
theorem digit_boundary (xs : List Char) (as : List Char) :
    ∀ ys bs, (∀ c ∈ xs, c.isDigit = true) → (∀ c ∈ ys, c.isDigit = true) →
      xs ++ '_' :: as = ys ++ '_' :: bs → xs = ys ∧ as = bs := by
  induction xs with
  | nil =>
    intro ys bs _ hys h
    cases ys with
    | nil => simpa using h
    | cons y ys' =>
      simp only [List.nil_append, List.cons_append, List.cons.injEq] at h
      have hdig : ('_' : Char).isDigit = true := by
        rw [h.1]; exact hys y (by simp)
      exact absurd hdig (by decide)
  | cons x xs' ih =>
    intro ys bs hxs hys h
    cases ys with
    | nil =>
      simp only [List.cons_append, List.nil_append, List.cons.injEq] at h
      have hdig : ('_' : Char).isDigit = true := by
        rw [← h.1]; exact hxs x (by simp)
      exact absurd hdig (by decide)
    | cons y ys' =>
      simp only [List.cons_append, List.cons.injEq] at h
      obtain ⟨hxy, h2⟩ := h
      obtain ⟨h3, h4⟩ :=
        ih ys' bs (fun c hc => hxs c (List.mem_cons_of_mem _ hc))
          (fun c hc => hys c (List.mem_cons_of_mem _ hc)) h2
      exact ⟨by rw [hxy, h3], h4⟩

theorem stringAppendAssoc (a b c : String) : (a ++ b) ++ c = a ++ (b ++ c) := by
  apply stringDataInj
  simp [String.data_append]

/-- Two asset names built from the fixed scheme agree only when both the page
number and the suffix agree. -/
theorem assetName_inj (n m : Nat) (s t : String)
    (hs : ∃ as, s.data = '_' :: as) (ht : ∃ bs, t.data = '_' :: bs)
    (h : "assets/" ++ ("p" ++ jsNumToString n) ++ s
          = "assets/" ++ ("p" ++ jsNumToString m) ++ t) :
    n = m ∧ s = t := by
  obtain ⟨as, has⟩ := hs
  obtain ⟨bs, hbs⟩ := ht
  have hd := congrArg String.data h
  simp only [String.data_append, has, hbs, List.append_assoc] at hd
  have hd2 := List.append_cancel_left hd
  have hd3 := List.append_cancel_left hd2
  obtain ⟨hdec, hsuffix⟩ :=
    digit_boundary (jsNumToString n).data as (jsNumToString m).data bs
      (jsNumToString_isDigit n) (jsNumToString_isDigit m) hd3
  refine ⟨jsNumToString_data_inj hdec, stringDataInj ?_⟩
  rw [has, hbs, hsuffix]

/-! ### Lemmas about the whole pipeline -/

theorem processPages_ok_nth (ps : List PageData)
    (rs : List (List (String × Blob) × ExportedPage)) (h : processPages ps = .ok rs) :
    rs.length = ps.length
      ∧ ∀ i, ∀ hi : i < ps.length, ∃ r, rs[i]? = some r ∧ processPage ps[i] = .ok r := by
  induction ps generalizing rs with
  | nil =>
    simp only [processPages, Except.ok.injEq] at h
    subst h
    simp
  | cons p ps ih =>
    simp only [processPages] at h
    cases hp : processPage p with
    | error e => rw [hp] at h; exact absurd h (by simp)
    | ok r =>
      rw [hp] at h
      cases hps : processPages ps with
      | error e => rw [hps] at h; exact absurd h (by simp)
      | ok rs' =>
        rw [hps] at h
        simp only [Except.ok.injEq] at h
        subst h
        obtain ⟨hlen, hnth⟩ := ih rs' hps
        refine ⟨by simp [hlen], ?_⟩
        intro i hi
        cases i with
        | zero => exact ⟨r, by simp, by simpa using hp⟩
        | succ j =>
          obtain ⟨r', hr1, hr2⟩ := hnth j (by simpa using hi)
          exact ⟨r', by simpa using hr1, by simpa using hr2⟩

theorem processPages_error_iff (ps : List PageData) :
    (∃ e, processPages ps = .error e) ↔ ∃ p ∈ ps, ∃ e, processPage p = .error e := by
  induction ps with
  | nil => simp [processPages]
  | cons p ps ih =>
    simp only [processPages]
    cases hp : processPage p with
    | error e =>
      simp only [List.mem_cons]
      constructor
      · intro _; exact ⟨p, Or.inl rfl, e, hp⟩
      · intro _; exact ⟨e, rfl⟩
    | ok r =>
      cases hps : processPages ps with
      | error e =>
        simp only [List.mem_cons]
        constructor
        · intro _
          obtain ⟨q, hq, e', he'⟩ := ih.mp ⟨e, hps⟩
          exact ⟨q, Or.inr hq, e', he'⟩
        · intro _; exact ⟨e, rfl⟩
      | ok rs =>
        simp only [List.mem_cons, reduceCtorEq, exists_false, false_iff]
        rintro ⟨q, hq | hq, e', he'⟩
        · subst hq; rw [hp] at he'; exact absurd he' (by simp)
        · exact absurd (ih.mpr ⟨q, hq, e', he'⟩) (by simp [hps])

theorem exportToZip_ok (c : CourseData) (arch : ZipArchive) (h : exportToZip c = .ok arch) :
    ∃ rs, processPages c.pages = .ok rs
      ∧ arch.assetEntries = (rs.map Prod.fst).flatten
      ∧ arch.exportData.title = c.title
      ∧ arch.exportData.pages = rs.map Prod.snd := by
  unfold exportToZip at h
  cases hps : processPages c.pages with
  | error e => rw [hps] at h; exact absurd h (by simp)
  | ok rs =>
    rw [hps] at h
    simp only [Except.ok.injEq] at h
    subst h
    exact ⟨rs, rfl, rfl, rfl, rfl⟩

theorem exportToZip_error_iff (c : CourseData) :
    (∃ e, exportToZip c = .error e) ↔ ∃ p ∈ c.pages, ∃ e, processPage p = .error e := by
  rw [← processPages_error_iff]
  unfold exportToZip
  cases hps : processPages c.pages with
  | error e => simp
  | ok rs => simp

theorem processPage_ok_sb_resolves (p : PageData) (es : List (String × Blob))
    (ep : ExportedPage) (h : processPage p = .ok (es, ep))
    (hc : (p.includeStoryboard && jsStrTruthy p.storyboardImage) = true) :
    ∃ b, dataURItoBlob (p.storyboardImage.getD "") = .ok b := by
  unfold processPage at h
  cases hdec : decodeBase64 p.imageBase64 with
  | none => rw [hdec] at h; exact absurd h (by simp)
  | some imgBytes =>
    rw [hdec] at h
    cases hsb : storyboardSlot p ("assets/" ++ pageStemOf p ++ "_storyboard.png") with
    | error e => rw [hsb] at h; exact absurd h (by simp)
    | ok r =>
      unfold storyboardSlot at hsb
      rw [if_pos hc] at hsb
      cases hdb : dataURItoBlob (p.storyboardImage.getD "") with
      | error e => rw [hdb] at hsb; exact absurd hsb (by simp)
      | ok b => exact ⟨b, rfl⟩

theorem dataURItoBlob_empty : dataURItoBlob "" = .error "InvalidCharacterError" := by decide

/-- When the storyboard branch is known to decode whenever it runs, the
code's truthiness test agrees with "the content resolves". -/
theorem storyboard_cond_eq (p : PageData)
    (hres : (p.includeStoryboard && jsStrTruthy p.storyboardImage) = true →
      ∃ b, dataURItoBlob (p.storyboardImage.getD "") = .ok b) :
    (p.includeStoryboard && jsStrTruthy p.storyboardImage)
      = (p.includeStoryboard && storyboardResolves p.storyboardImage) := by
  cases hinc : p.includeStoryboard with
  | false => simp
  | true =>
    cases himg : p.storyboardImage with
    | none => simp [jsStrTruthy, storyboardResolves]
    | some s =>
      by_cases hs : s = ""
      · subst hs
        simp [jsStrTruthy, storyboardResolves, dataURItoBlob_empty, Except.toOption]
      · have hb := hres (by rw [himg]; simp [jsStrTruthy, hs, hinc])
        rw [himg] at hb
        obtain ⟨b, hb⟩ := hb
        simp only [Option.getD_some] at hb
        simp [jsStrTruthy, storyboardResolves, hs, hb, Except.toOption]

theorem teacherName_mem_iff (p : PageData) :
    ("assets/" ++ pageStemOf p ++ "_teacher.wav") ∈ pageAssetNames p
      ↔ (p.includeTeacherAudio && p.teacherAudioBlob.isSome) = true := by
  rw [mem_pageAssetNames]
  constructor
  · rintro (h | ⟨hc, h⟩ | ⟨hc, h⟩ | ⟨hc, h⟩ | ⟨hc, h⟩)
    · exact absurd h (appendNe _ (by decide))
    · exact hc
    · exact absurd h (appendNe _ (by decide))
    · exact absurd h (appendNe _ (by decide))
    · exact absurd h (appendNe _ (by decide))
  · intro hc; exact Or.inr (Or.inl ⟨hc, rfl⟩)

theorem storyboardName_mem_iff (p : PageData) :
    ("assets/" ++ pageStemOf p ++ "_storyboard.png") ∈ pageAssetNames p
      ↔ (p.includeStoryboard && jsStrTruthy p.storyboardImage) = true := by
  rw [mem_pageAssetNames]
  constructor
  · rintro (h | ⟨hc, h⟩ | ⟨hc, h⟩ | ⟨hc, h⟩ | ⟨hc, h⟩)
    · exact absurd h (appendNe _ (by decide))
    · exact absurd h (appendNe _ (by decide))
    · exact hc
    · exact absurd h (appendNe _ (by decide))
    · exact absurd h (appendNe _ (by decide))
  · intro hc; exact Or.inr (Or.inr (Or.inl ⟨hc, rfl⟩))

theorem videoName_mem_iff (p : PageData) :
    ("assets/" ++ pageStemOf p ++ "_video.mp4") ∈ pageAssetNames p
      ↔ (p.includeVideo && p.videoBlob.isSome) = true := by
  rw [mem_pageAssetNames]
  constructor
  · rintro (h | ⟨hc, h⟩ | ⟨hc, h⟩ | ⟨hc, h⟩ | ⟨hc, h⟩)
    · exact absurd h (appendNe _ (by decide))
    · exact absurd h (appendNe _ (by decide))
    · exact absurd h (appendNe _ (by decide))
    · exact hc
    · exact absurd h (appendNe _ (by decide))
  · intro hc; exact Or.inr (Or.inr (Or.inr (Or.inl ⟨hc, rfl⟩)))

theorem dialogueName_mem_iff (p : PageData) :
    ("assets/" ++ pageStemOf p ++ "_dialogue.wav") ∈ pageAssetNames p
      ↔ (p.includeDialogueAudio && p.dialogueAudioBlob.isSome) = true := by
  rw [mem_pageAssetNames]
  constructor
  · rintro (h | ⟨hc, h⟩ | ⟨hc, h⟩ | ⟨hc, h⟩ | ⟨hc, h⟩)
    · exact absurd h (appendNe _ (by decide))
    · exact absurd h (appendNe _ (by decide))
    · exact absurd h (appendNe _ (by decide))
    · exact absurd h (appendNe _ (by decide))
    · exact hc
  · intro hc; exact Or.inr (Or.inr (Or.inr (Or.inr ⟨hc, rfl⟩)))

theorem pageAssetNames_nodup (p : PageData) : (pageAssetNames p).Nodup := by
  have hmt : ("assets/" ++ pageStemOf p ++ "_main.jpg")
      ≠ "assets/" ++ pageStemOf p ++ "_teacher.wav" := appendNe _ (by decide)
  have hms : ("assets/" ++ pageStemOf p ++ "_main.jpg")
      ≠ "assets/" ++ pageStemOf p ++ "_storyboard.png" := appendNe _ (by decide)
  have hmv : ("assets/" ++ pageStemOf p ++ "_main.jpg")
      ≠ "assets/" ++ pageStemOf p ++ "_video.mp4" := appendNe _ (by decide)
  have hmd : ("assets/" ++ pageStemOf p ++ "_main.jpg")
      ≠ "assets/" ++ pageStemOf p ++ "_dialogue.wav" := appendNe _ (by decide)
  have hts : ("assets/" ++ pageStemOf p ++ "_teacher.wav")
      ≠ "assets/" ++ pageStemOf p ++ "_storyboard.png" := appendNe _ (by decide)
  have htv : ("assets/" ++ pageStemOf p ++ "_teacher.wav")
      ≠ "assets/" ++ pageStemOf p ++ "_video.mp4" := appendNe _ (by decide)
  have htd : ("assets/" ++ pageStemOf p ++ "_teacher.wav")
      ≠ "assets/" ++ pageStemOf p ++ "_dialogue.wav" := appendNe _ (by decide)
  have hsv : ("assets/" ++ pageStemOf p ++ "_storyboard.png")
      ≠ "assets/" ++ pageStemOf p ++ "_video.mp4" := appendNe _ (by decide)
  have hsd : ("assets/" ++ pageStemOf p ++ "_storyboard.png")
      ≠ "assets/" ++ pageStemOf p ++ "_dialogue.wav" := appendNe _ (by decide)
  have hvd : ("assets/" ++ pageStemOf p ++ "_video.mp4")
      ≠ "assets/" ++ pageStemOf p ++ "_dialogue.wav" := appendNe _ (by decide)
  unfold pageAssetNames
  cases hT : (p.includeTeacherAudio && p.teacherAudioBlob.isSome) <;>
    cases hS : (p.includeStoryboard && jsStrTruthy p.storyboardImage) <;>
      cases hV : (p.includeVideo && p.videoBlob.isSome) <;>
        cases hD : (p.includeDialogueAudio && p.dialogueAudioBlob.isSome) <;>
          simp [hmt, hms, hmv, hmd, hts, htv, htd, hsv, hsd, hvd]

theorem pageAssetNames_disjoint (p q : PageData) (hne : p.pageNumber ≠ q.pageNumber) :
    ∀ x, x ∈ pageAssetNames p → x ∈ pageAssetNames q → False := by
  intro x hxp hxq
  rw [mem_pageAssetNames] at hxp hxq
  have key : ∀ s t : String, (∃ as, s.data = '_' :: as) → (∃ bs, t.data = '_' :: bs) →
      x = "assets/" ++ pageStemOf p ++ s → x = "assets/" ++ pageStemOf q ++ t → False := by
    intro s t hs ht hp hq
    exact hne (assetName_inj p.pageNumber q.pageNumber s t hs ht (hp.symm.trans hq)).1
  rcases hxp with h | ⟨_, h⟩ | ⟨_, h⟩ | ⟨_, h⟩ | ⟨_, h⟩ <;>
    rcases hxq with h' | ⟨_, h'⟩ | ⟨_, h'⟩ | ⟨_, h'⟩ | ⟨_, h'⟩ <;>
      exact key _ _ ⟨_, rfl⟩ ⟨_, rfl⟩ h h'

theorem processPages_names (ps : List PageData)
    (rs : List (List (String × Blob) × ExportedPage)) (h : processPages ps = .ok rs) :
    ((rs.map Prod.fst).flatten).map Prod.fst = ps.flatMap pageAssetNames := by
  induction ps generalizing rs with
  | nil =>
    simp only [processPages, Except.ok.injEq] at h
    subst h
    rfl
  | cons p ps ih =>
    simp only [processPages] at h
    cases hp : processPage p with
    | error e => rw [hp] at h; exact absurd h (by simp)
    | ok r =>
      rw [hp] at h
      cases hps : processPages ps with
      | error e => rw [hps] at h; exact absurd h (by simp)
      | ok rs' =>
        rw [hps] at h
        simp only [Except.ok.injEq] at h
        subst h
        obtain ⟨es, ep⟩ := r
        have hnames := (processPage_ok p es ep hp).2.2.2.2.2.2
        simp only [List.map_cons, List.flatten_cons, List.map_append, List.flatMap_cons,
          hnames, ih rs' hps]

theorem pageShape_names (p q : PageData) (h : pageShape p = pageShape q) :
    pageAssetNames p = pageAssetNames q := by
  unfold pageShape at h
  simp only [Prod.mk.injEq] at h
  obtain ⟨h1, h2, h3, h4, h5⟩ := h
  unfold pageAssetNames pageStemOf
  rw [h1, h2, h3, h4, h5]

theorem shapes_names (ps qs : List PageData) (h : ps.map pageShape = qs.map pageShape) :
    ps.flatMap pageAssetNames = qs.flatMap pageAssetNames := by
  induction ps generalizing qs with
  | nil => cases qs with
    | nil => rfl
    | cons q qs => simp at h
  | cons p ps ih =>
    cases qs with
    | nil => simp at h
    | cons q qs =>
      simp only [List.map_cons, List.cons.injEq] at h
      simp only [List.flatMap_cons, pageShape_names p q h.1, ih qs h.2]

theorem flatMap_names_nodup (ps : List PageData)
    (hnd : (ps.map PageData.pageNumber).Nodup) :
    (ps.flatMap pageAssetNames).Nodup := by
  induction ps with
  | nil => simp
  | cons p ps ih =>
    simp only [List.map_cons, List.nodup_cons] at hnd
    obtain ⟨hnot, hnd'⟩ := hnd
    simp only [List.flatMap_cons]
    rw [List.nodup_append]
    refine ⟨pageAssetNames_nodup p, ih hnd', ?_⟩
    intro x hxp hxq
    rw [List.mem_flatMap] at hxq
    obtain ⟨q, hq, hxq⟩ := hxq
    refine pageAssetNames_disjoint p q ?_ x hxp hxq
    intro heq
    exact hnot (heq ▸ List.mem_map_of_mem PageData.pageNumber hq)

/-- Claim C4: with pairwise-distinct page numbers, the bundled asset paths
are pairwise distinct, all lie under the single `assets/` folder, and are
derived purely from each page's `pageNumber` plus a fixed per-slot suffix and
extension; consequently the archive path structure is a function of the
pages' shapes alone, identical across export runs of an unchanged course. -/
theorem c4_paths (c : CourseData) (arch : ZipArchive)
    (hok : exportToZip c = Except.ok arch)
    (hnd : (c.pages.map PageData.pageNumber).Nodup) :
    arch.assetEntries.map Prod.fst = c.pages.flatMap pageAssetNames
    ∧ (arch.assetEntries.map Prod.fst).Nodup
    ∧ (∀ name ∈ arch.assetEntries.map Prod.fst, ∃ rest, name = "assets/" ++ rest)
    ∧ (∀ c' arch', exportToZip c' = Except.ok arch' →
        c'.pages.map pageShape = c.pages.map pageShape →
        arch'.assetEntries.map Prod.fst = arch.assetEntries.map Prod.fst) := by
  obtain ⟨rs, hrs, hassets, _, _⟩ := exportToZip_ok c arch hok
  have hnames : arch.assetEntries.map Prod.fst = c.pages.flatMap pageAssetNames := by
    rw [hassets]
    exact processPages_names c.pages rs hrs
  refine ⟨hnames, ?_, ?_, ?_⟩
  · rw [hnames]
    exact flatMap_names_nodup c.pages hnd
  · intro name hmem
    rw [hnames, List.mem_flatMap] at hmem
    obtain ⟨p, _, hx⟩ := hmem
    rw [mem_pageAssetNames] at hx
    rcases hx with h | ⟨_, h⟩ | ⟨_, h⟩ | ⟨_, h⟩ | ⟨_, h⟩ <;>
      exact ⟨_, by rw [h, stringAppendAssoc]⟩
  · intro c' arch' hok' hshape
    obtain ⟨rs', hrs', hassets', _, _⟩ := exportToZip_ok c' arch' hok'
    rw [hassets', processPages_names c'.pages rs' hrs', hnames]
    exact shapes_names c'.pages c.pages hshape

/-- Witness for C4 at the demo course: distinct page numbers, and the archive
paths are exactly the derived ones, pairwise distinct. -/
theorem c4_paths_witness :
    exportToZip demoCourse = Except.ok demoArch
      ∧ (demoCourse.pages.map PageData.pageNumber).Nodup
      ∧ (demoArch.assetEntries.map Prod.fst).Nodup
      ∧ demoArch.assetEntries.map Prod.fst = demoCourse.pages.flatMap pageAssetNames := by
  obtain ⟨h1, h2, _, _⟩ := c4_paths demoCourse demoArch (by decide) (by decide)
  exact ⟨by decide, by decide, h2, h1⟩

/-- Claim C1: in every successful export, for each page and each of the four
optional media slots, the slot's exported path is non-null iff the slot's
include flag is true and its content resolves, independently per slot, and
exactly the slots with a non-null path have an asset entry registered for
this page under `assets/`. -/
theorem c1_slot_paths (c : CourseData) (arch : ZipArchive)
    (hok : exportToZip c = Except.ok arch) (i : Nat) (hi : i < c.pages.length) :
    ∃ es ep, processPage c.pages[i] = Except.ok (es, ep)
      ∧ arch.exportData.pages[i]? = some ep
      ∧ ep.teacherAudioPath.isSome
          = (c.pages[i].includeTeacherAudio && blobResolves c.pages[i].teacherAudioBlob)
      ∧ ep.storyboardPath.isSome
          = (c.pages[i].includeStoryboard && storyboardResolves c.pages[i].storyboardImage)
      ∧ ep.videoPath.isSome = (c.pages[i].includeVideo && blobResolves c.pages[i].videoBlob)
      ∧ ep.dialogueAudioPath.isSome
          = (c.pages[i].includeDialogueAudio && blobResolves c.pages[i].dialogueAudioBlob)
      ∧ (ep.teacherAudioPath.isSome = true ↔
          ("assets/" ++ pageStemOf c.pages[i] ++ "_teacher.wav") ∈ es.map Prod.fst)
      ∧ (ep.storyboardPath.isSome = true ↔
          ("assets/" ++ pageStemOf c.pages[i] ++ "_storyboard.png") ∈ es.map Prod.fst)
      ∧ (ep.videoPath.isSome = true ↔
          ("assets/" ++ pageStemOf c.pages[i] ++ "_video.mp4") ∈ es.map Prod.fst)
      ∧ (ep.dialogueAudioPath.isSome = true ↔
          ("assets/" ++ pageStemOf c.pages[i] ++ "_dialogue.wav") ∈ es.map Prod.fst) := by
  obtain ⟨rs, hrs, hassets, htitle, hpages⟩ := exportToZip_ok c arch hok
  obtain ⟨hlen, hnth⟩ := processPages_ok_nth c.pages rs hrs
  obtain ⟨r, hr1, hr2⟩ := hnth i hi
  obtain ⟨es, ep⟩ := r
  have hpp := processPage_ok c.pages[i] es ep hr2
  obtain ⟨hnum, himg, hT, hS, hV, hD, hnames⟩ := hpp
  have hsbeq := storyboard_cond_eq c.pages[i] (processPage_ok_sb_resolves c.pages[i] es ep hr2)
  refine ⟨es, ep, hr2, ?_, ?_, ?_, ?_, ?_, ?_, ?_, ?_, ?_⟩
  · rw [hpages, List.getElem?_map, hr1]; rfl
  · rw [hT]
    cases hc : (c.pages[i].includeTeacherAudio && c.pages[i].teacherAudioBlob.isSome) <;>
      simp [blobResolves, hc]
  · rw [hS, ← hsbeq]
    cases hc : (c.pages[i].includeStoryboard && jsStrTruthy c.pages[i].storyboardImage) <;>
      simp [hc]
  · rw [hV]
    cases hc : (c.pages[i].includeVideo && c.pages[i].videoBlob.isSome) <;>
      simp [blobResolves, hc]
  · rw [hD]
    cases hc : (c.pages[i].includeDialogueAudio && c.pages[i].dialogueAudioBlob.isSome) <;>
      simp [blobResolves, hc]
  · rw [hnames, teacherName_mem_iff, hT]
    cases hc : (c.pages[i].includeTeacherAudio && c.pages[i].teacherAudioBlob.isSome) <;>
      simp [hc]
  · rw [hnames, storyboardName_mem_iff, hS]
    cases hc : (c.pages[i].includeStoryboard && jsStrTruthy c.pages[i].storyboardImage) <;>
      simp [hc]
  · rw [hnames, videoName_mem_iff, hV]
    cases hc : (c.pages[i].includeVideo && c.pages[i].videoBlob.isSome) <;>
      simp [hc]
  · rw [hnames, dialogueName_mem_iff, hD]
    cases hc : (c.pages[i].includeDialogueAudio && c.pages[i].dialogueAudioBlob.isSome) <;>
      simp [hc]

/-- Witness for C1 at a concrete course: the demo export succeeds, and the
instantiation at its first page yields the per-slot equivalences. -/
theorem c1_slot_paths_witness :
    exportToZip demoCourse = Except.ok demoArch
      ∧ 0 < demoCourse.pages.length
      ∧ ∃ es ep, processPage demoPage1 = Except.ok (es, ep)
          ∧ demoArch.exportData.pages[0]? = some ep
          ∧ ep.teacherAudioPath.isSome
              = (demoPage1.includeTeacherAudio && blobResolves demoPage1.teacherAudioBlob)
          ∧ ep.videoPath.isSome = (demoPage1.includeVideo && blobResolves demoPage1.videoBlob) := by
  refine ⟨by decide, by decide, ?_⟩
  obtain ⟨es, ep, h1, h2, h3, _, h5, _⟩ :=
    c1_slot_paths demoCourse demoArch (by decide) 0 (by decide)
  exact ⟨es, ep, h1, h2, h3, h5⟩

/-- Counterexample to C2 as stated: in `badStoryboardCourse` the only page's
storyboard slot is included and its content is present but not decodable
(`!!!` is not base64), while its base image decodes fine; the claim promises
the export still completes with the slot omitted, but `exportToZip` fails
fatally with the decoder's exception. -/
theorem c2_counterexample :
    badStoryboardPage ∈ badStoryboardCourse.pages
      ∧ badStoryboardPage.includeStoryboard = true
      ∧ badStoryboardPage.storyboardImage = some "data:image/png;base64,!!!"
      ∧ decodeBase64 badStoryboardPage.imageBase64 = some []
      ∧ exportToZip badStoryboardCourse = Except.error "InvalidCharacterError" := by
  decide

/-- Claim C2 (amended): an included slot whose content is absent degrades to
"omitted", never to a fatal error — the export fails exactly when some page's
base image fails to decode or some page's included, present storyboard
data-URI fails to decode; and in a successful export every slot with absent
content has a null exported path. -/
theorem c2_absent_content_degrades (c : CourseData) :
    ((∃ e, exportToZip c = Except.error e) ↔
      ∃ p ∈ c.pages, decodeBase64 p.imageBase64 = none
        ∨ ((p.includeStoryboard && jsStrTruthy p.storyboardImage) = true
            ∧ ∃ e, dataURItoBlob (p.storyboardImage.getD "") = Except.error e))
    ∧ ∀ arch, exportToZip c = Except.ok arch →
        ∀ i, ∀ hi : i < c.pages.length, ∃ ep, arch.exportData.pages[i]? = some ep
          ∧ (c.pages[i].teacherAudioBlob = none → ep.teacherAudioPath = none)
          ∧ (c.pages[i].storyboardImage = none → ep.storyboardPath = none)
          ∧ (c.pages[i].videoBlob = none → ep.videoPath = none)
          ∧ (c.pages[i].dialogueAudioBlob = none → ep.dialogueAudioPath = none) := by
  constructor
  · rw [exportToZip_error_iff]
    constructor
    · rintro ⟨p, hp, e, he⟩
      exact ⟨p, hp, (processPage_error_iff p).mp ⟨e, he⟩⟩
    · rintro ⟨p, hp, hcond⟩
      obtain ⟨e, he⟩ := (processPage_error_iff p).mpr hcond
      exact ⟨p, hp, e, he⟩
  · intro arch hok i hi
    obtain ⟨rs, hrs, _, _, hpages⟩ := exportToZip_ok c arch hok
    obtain ⟨hlen, hnth⟩ := processPages_ok_nth c.pages rs hrs
    obtain ⟨r, hr1, hr2⟩ := hnth i hi
    obtain ⟨es, ep⟩ := r
    obtain ⟨_, _, hT, hS, hV, hD, _⟩ := processPage_ok c.pages[i] es ep hr2
    refine ⟨ep, ?_, ?_, ?_, ?_, ?_⟩
    · rw [hpages, List.getElem?_map, hr1]; rfl
    · intro hnone; rw [hT, hnone]; simp
    · intro hnone; rw [hS, hnone]; simp [jsStrTruthy]
    · intro hnone; rw [hV, hnone]; simp
    · intro hnone; rw [hD, hnone]; simp

/-- Witness for the amended C2 at a concrete course: the demo export succeeds
although page 1's video slot is included with absent content, and that slot
is exported as null. -/
theorem c2_absent_content_degrades_witness :
    demoPage1.includeVideo = true ∧ demoPage1.videoBlob = none
      ∧ ∃ ep, demoArch.exportData.pages[0]? = some ep ∧ ep.videoPath = none := by
  obtain ⟨ep, h1, _, _, h4, _⟩ :=
    (c2_absent_content_degrades demoCourse).2 demoArch (by decide) 0 (by decide)
  exact ⟨by decide, by decide, ep, h1, h4 (by decide)⟩

/-- Claim C3: whenever at least one page's base image fails to decode, the
export fails fatally and produces no archive. -/
theorem c3_base_image_fatal (c : CourseData)
    (h : ∃ p ∈ c.pages, decodeBase64 p.imageBase64 = none) :
    (∃ e, exportToZip c = Except.error e) ∧ ∀ arch, exportToZip c ≠ Except.ok arch := by
  have herr : ∃ p ∈ c.pages, ∃ e, processPage p = .error e := by
    obtain ⟨p, hp, hdec⟩ := h
    exact ⟨p, hp, (processPage_error_iff p).mpr (Or.inl hdec)⟩
  obtain ⟨e, he⟩ := (exportToZip_error_iff c).mpr herr
  refine ⟨⟨e, he⟩, fun arch harch => ?_⟩
  rw [he] at harch
  exact absurd harch (by simp)

/-- Witness for C3: `badBaseCourse` has a page whose base image is not
base64; its export fails. -/
theorem c3_base_image_fatal_witness :
    (∃ p ∈ badBaseCourse.pages, decodeBase64 p.imageBase64 = none)
      ∧ (∃ e, exportToZip badBaseCourse = Except.error e) := by
  refine ⟨by decide, (c3_base_image_fatal badBaseCourse (by decide)).1⟩

/-- Claim C5: a successful export contains exactly one exported page per
course page, in the same array order, and each exported page's `pageNumber`
is the authored one. -/
theorem c5_page_order (c : CourseData) (arch : ZipArchive)
    (hok : exportToZip c = Except.ok arch) :
    arch.exportData.pages.length = c.pages.length
      ∧ arch.exportData.pages.map ExportedPage.pageNumber
          = c.pages.map PageData.pageNumber := by
  obtain ⟨rs, hrs, _, _, hpages⟩ := exportToZip_ok c arch hok
  obtain ⟨hlen, hnth⟩ := processPages_ok_nth c.pages rs hrs
  have hlen2 : arch.exportData.pages.length = c.pages.length := by
    rw [hpages, List.length_map, hlen]
  refine ⟨hlen2, ?_⟩
  apply List.ext_getElem?
  intro i
  by_cases hi : i < c.pages.length
  · obtain ⟨r, hr1, hr2⟩ := hnth i hi
    obtain ⟨es, ep⟩ := r
    have hnum := (processPage_ok c.pages[i] es ep hr2).1
    rw [hpages]
    simp only [List.map_map, List.getElem?_map, hr1, Option.map_some,
      Function.comp_apply, List.getElem?_eq_getElem hi, hnum]
    simp [hnum]
  · have h1 : ¬ i < arch.exportData.pages.length := by rw [hlen2]; exact hi
    rw [List.getElem?_eq_none (by simpa using h1), List.getElem?_eq_none (by simpa using hi)]

/-- Witness for C5 at the demo course. -/
theorem c5_page_order_witness :
    exportToZip demoCourse = Except.ok demoArch
      ∧ demoArch.exportData.pages.length = demoCourse.pages.length
      ∧ demoArch.exportData.pages.map ExportedPage.pageNumber
          = demoCourse.pages.map PageData.pageNumber := by
  obtain ⟨h1, h2⟩ := c5_page_order demoCourse demoArch (by decide)
  exact ⟨by decide, h1, h2⟩

theorem samePage_processPage (p q : PageData) (h : SamePageUpToFreeText p q) :
    processPage p = processPage q := by
  cases p
  cases q
  obtain ⟨h1, h2, h3, h4, h5, h6, h7, h8, h9, h10, h11, h12,
    h13, h14, h15, h16, h17, h18, h19, h20, h21⟩ := h
  simp only at h1 h2 h3 h4 h5 h6 h7 h8 h9 h10 h11 h12 h13 h14 h15 h16 h17 h18 h19 h20 h21
  subst h1 h2 h3 h4 h5 h6 h7 h8 h9 h10 h11 h12 h13 h14 h15 h16 h17 h18 h19 h20 h21
  rfl

theorem samePages_processPages (ps qs : List PageData)
    (h : List.Forall₂ SamePageUpToFreeText ps qs) :
    processPages ps = processPages qs := by
  induction h with
  | nil => rfl
  | cons hpq _ ih =>
      simp only [processPages]
      rw [samePage_processPage _ _ hpq, ih]

/-- Claim C6: the exported package embeds none of the free-text fields — two
courses that differ only in their pages' `extractedText` and
`imageDescription` export to identical archives (same asset entries, same
embedded data, hence the same generated document). -/
theorem c6_free_text_dropped (c1 c2 : CourseData)
    (htitle : c1.title = c2.title)
    (hpages : List.Forall₂ SamePageUpToFreeText c1.pages c2.pages) :
    exportToZip c1 = exportToZip c2 := by
  unfold exportToZip
  rw [samePages_processPages c1.pages c2.pages hpages, htitle]

/-- Witness for C6: the demo course and its free-text-altered variant export
identically although their first pages' free text differs. -/
theorem c6_free_text_dropped_witness :
    demoCourse.title = demoCourseAlt.title
      ∧ demoPage1.extractedText ≠ demoPage1Alt.extractedText
      ∧ demoPage1.imageDescription ≠ demoPage1Alt.imageDescription
      ∧ exportToZip demoCourse = exportToZip demoCourseAlt := by
  refine ⟨by decide, by decide, by decide, ?_⟩
  exact c6_free_text_dropped demoCourse demoCourseAlt (by decide)
    (List.Forall₂.cons (by decide) (List.Forall₂.cons (by decide) List.Forall₂.nil))

/-! ### Lemmas about the embedded viewer runtime -/

theorem renderPage_zoom_pan (d : ExportData) (i : Nat) (s : ViewerState) :
    (renderPage d i s).currentZoom = 1
      ∧ (renderPage d i s).panX = 0 ∧ (renderPage d i s).panY = 0 := by
  unfold renderPage
  cases d.pages[i]? <;> exact ⟨rfl, rfl, rfl⟩

theorem renderPage_index (d : ExportData) (i : Nat) (s : ViewerState) :
    (renderPage d i s).currentPageIndex = s.currentPageIndex := by
  unfold renderPage
  cases d.pages[i]? <;> rfl

theorem renderPage_found (d : ExportData) (i : Nat) (s : ViewerState) (page : ExportedPage)
    (h : d.pages[i]? = some page) :
    renderPage d i s = { s with currentZoom := 1, panX := 0, panY := 0
                                displayed := some (mkCard page)
                                prevDisabled := i == 0
                                nextDisabled := i == d.pages.length - 1 } := by
  unfold renderPage
  rw [h]

theorem getComp_setComp_other (card : RenderedCard) (k j : AudioKind) (a : AudioComp)
    (h : j ≠ k) : getComp (setComp card k a) j = getComp card j := by
  cases k <;> cases j
  · exact absurd rfl h
  · rfl
  · rfl
  · exact absurd rfl h

theorem getComp_setComp_self (card : RenderedCard) (k : AudioKind) (a : AudioComp) :
    getComp (setComp card k a) k = some a := by
  cases k <;> rfl

theorem setSpeed_fields (s : ViewerState) (k : AudioKind) (i : Fin 3) :
    (setSpeed s k i).currentPageIndex = s.currentPageIndex
      ∧ (setSpeed s k i).currentZoom = s.currentZoom
      ∧ (setSpeed s k i).panX = s.panX ∧ (setSpeed s k i).panY = s.panY
      ∧ (setSpeed s k i).prevDisabled = s.prevDisabled
      ∧ (setSpeed s k i).nextDisabled = s.nextDisabled
      ∧ (setSpeed s k i).highContrast = s.highContrast := by
  unfold setSpeed
  split
  · exact ⟨rfl, rfl, rfl, rfl, rfl, rfl, rfl⟩
  · split
    · exact ⟨rfl, rfl, rfl, rfl, rfl, rfl, rfl⟩
    · exact ⟨rfl, rfl, rfl, rfl, rfl, rfl, rfl⟩

/-- Counterexample to C10 as stated: rendering a page index with no page data
is not a no-op on the viewer state — `renderPage` resets `currentZoom`,
`panX` and `panY` before it checks whether the page exists. -/
theorem c10_counterexample :
    demoData.pages[5]? = none ∧ renderPage demoData 5 zoomedState ≠ zoomedState := by
  decide

/-- Claim C10 (amended): rendering a page index with no corresponding page
data leaves the page index, the rendered markup, the contrast flag and the
button states unchanged, but resets zoom to 1 and pan to (0,0). -/
theorem c10_render_missing (d : ExportData) (i : Nat) (s : ViewerState)
    (h : d.pages[i]? = none) :
    renderPage d i s = { s with currentZoom := 1, panX := 0, panY := 0 } := by
  unfold renderPage
  rw [h]

/-- Witness for the amended C10 at a concrete missing index. -/
theorem c10_render_missing_witness :
    demoData.pages[5]? = none
      ∧ renderPage demoData 5 zoomedState
          = { zoomedState with currentZoom := 1, panX := 0, panY := 0 } :=
  ⟨by decide, c10_render_missing demoData 5 zoomedState (by decide)⟩

theorem renderPage_inv (d : ExportData) (i : Nat) (s : ViewerState)
    (hi : i < d.pages.length) (hidx : s.currentPageIndex = i) :
    (renderPage d i s).currentPageIndex < d.pages.length
      ∧ (renderPage d i s).prevDisabled = ((renderPage d i s).currentPageIndex == 0)
      ∧ (renderPage d i s).nextDisabled
          = ((renderPage d i s).currentPageIndex == d.pages.length - 1) := by
  rw [renderPage_found d i s d.pages[i] (List.getElem?_eq_getElem hi)]
  subst hidx
  exact ⟨hi, rfl, rfl⟩

theorem step_nav_inv (d : ExportData) (s : ViewerState)
    (h1 : s.currentPageIndex < d.pages.length)
    (h2 : s.prevDisabled = (s.currentPageIndex == 0))
    (h3 : s.nextDisabled = (s.currentPageIndex == d.pages.length - 1)) (e : VEvent) :
    (viewerStep d s e).currentPageIndex < d.pages.length
      ∧ (viewerStep d s e).prevDisabled = ((viewerStep d s e).currentPageIndex == 0)
      ∧ (viewerStep d s e).nextDisabled
          = ((viewerStep d s e).currentPageIndex == d.pages.length - 1) := by
  cases e with
  | clickPrev =>
    by_cases hpos : 0 < s.currentPageIndex
    · simp only [viewerStep, if_pos hpos]
      exact renderPage_inv d (s.currentPageIndex - 1) _ (by omega) rfl
    · simp only [viewerStep, if_neg hpos]
      exact ⟨h1, h2, h3⟩
  | clickNext =>
    by_cases hlt : s.currentPageIndex < d.pages.length - 1
    · simp only [viewerStep, if_pos hlt]
      exact renderPage_inv d (s.currentPageIndex + 1) _ (by omega) rfl
    · simp only [viewerStep, if_neg hlt]
      exact ⟨h1, h2, h3⟩
  | zoomIn => exact ⟨h1, h2, h3⟩
  | zoomOut => exact ⟨h1, h2, h3⟩
  | resetZoom => exact ⟨h1, h2, h3⟩
  | toggleContrast => exact ⟨h1, h2, h3⟩
  | speedBtn k i =>
    obtain ⟨f1, _, _, _, f5, f6, _⟩ := setSpeed_fields s k i
    refine ⟨?_, ?_, ?_⟩
    · rw [show (viewerStep d s (.speedBtn k i)) = setSpeed s k i from rfl, f1]; exact h1
    · rw [show (viewerStep d s (.speedBtn k i)) = setSpeed s k i from rfl, f1, f5]; exact h2
    · rw [show (viewerStep d s (.speedBtn k i)) = setSpeed s k i from rfl, f1, f6]; exact h3
  | mouseDown x y =>
    simp only [viewerStep]
    split
    · exact ⟨h1, h2, h3⟩
    · split
      · exact ⟨h1, h2, h3⟩
      · exact ⟨h1, h2, h3⟩
  | mouseMove x y =>
    simp only [viewerStep]
    split
    · exact ⟨h1, h2, h3⟩
    · split
      · exact ⟨h1, h2, h3⟩
      · exact ⟨h1, h2, h3⟩
  | mouseUp =>
    simp only [viewerStep]
    split
    · exact ⟨h1, h2, h3⟩
    · exact ⟨h1, h2, h3⟩

theorem foldl_nav_inv (d : ExportData) (evs : List VEvent) :
    ∀ s : ViewerState, s.currentPageIndex < d.pages.length →
      s.prevDisabled = (s.currentPageIndex == 0) →
      s.nextDisabled = (s.currentPageIndex == d.pages.length - 1) →
      (evs.foldl (viewerStep d) s).currentPageIndex < d.pages.length
        ∧ (evs.foldl (viewerStep d) s).prevDisabled
            = ((evs.foldl (viewerStep d) s).currentPageIndex == 0)
        ∧ (evs.foldl (viewerStep d) s).nextDisabled
            = ((evs.foldl (viewerStep d) s).currentPageIndex == d.pages.length - 1) := by
  induction evs with
  | nil => intro s h1 h2 h3; exact ⟨h1, h2, h3⟩
  | cons e evs ih =>
    intro s h1 h2 h3
    obtain ⟨g1, g2, g3⟩ := step_nav_inv d s h1 h2 h3 e
    exact ih (viewerStep d s e) g1 g2 g3

/-- Counterexample to C7 as stated: for an exported course with zero pages
the viewer starts with `pageIndex = 0`, which is not in `[0, pageCount-1]`,
and after the initial page render the prev control is not disabled although
the index is 0. -/
theorem c7_counterexample :
    emptyData.pages.length = 0
      ∧ ¬ (initViewer emptyData).currentPageIndex < emptyData.pages.length
      ∧ (initViewer emptyData).currentPageIndex = 0
      ∧ (initViewer emptyData).prevDisabled = false := by
  decide

/-- Claim C7 (amended): for every package with at least one page, the
viewer's page index always stays in `[0, pageCount-1]` under any event
sequence, `prev()` at page 0 and `next()` at the last page leave the state
unchanged, and after every render the prev control is disabled exactly at
index 0 and the next control exactly at the last index. -/
theorem c7_nav_clamp (d : ExportData) (hne : 0 < d.pages.length) (evs : List VEvent) :
    (runViewer d evs).currentPageIndex < d.pages.length
      ∧ (runViewer d evs).prevDisabled = ((runViewer d evs).currentPageIndex == 0)
      ∧ (runViewer d evs).nextDisabled
          = ((runViewer d evs).currentPageIndex == d.pages.length - 1)
      ∧ (∀ s : ViewerState, s.currentPageIndex = 0 → viewerStep d s .clickPrev = s)
      ∧ (∀ s : ViewerState, s.currentPageIndex = d.pages.length - 1 →
            viewerStep d s .clickNext = s) := by
  have hinit := renderPage_inv d 0 initState hne rfl
  obtain ⟨g1, g2, g3⟩ :=
    foldl_nav_inv d evs (initViewer d) hinit.1 hinit.2.1 hinit.2.2
  refine ⟨g1, g2, g3, ?_, ?_⟩
  · intro s hs
    simp [viewerStep, hs]
  · intro s hs
    simp [viewerStep, hs]

/-- Witness for the amended C7: three next-clicks on the two-page demo
package leave the index at the last page. -/
theorem c7_nav_clamp_witness :
    0 < demoData.pages.length
      ∧ (runViewer demoData [.clickNext, .clickNext, .clickNext]).currentPageIndex
          < demoData.pages.length :=
  ⟨by decide, (c7_nav_clamp demoData (by decide) [.clickNext, .clickNext, .clickNext]).1⟩

theorem step_zoom_ge (d : ExportData) (s : ViewerState) (e : VEvent)
    (h : 1 ≤ s.currentZoom) : 1 ≤ (viewerStep d s e).currentZoom := by
  cases e with
  | clickPrev =>
    by_cases hpos : 0 < s.currentPageIndex
    · simp only [viewerStep, if_pos hpos]
      rw [(renderPage_zoom_pan d _ _).1]
    · simp only [viewerStep, if_neg hpos]
      exact h
  | clickNext =>
    by_cases hlt : s.currentPageIndex < d.pages.length - 1
    · simp only [viewerStep, if_pos hlt]
      rw [(renderPage_zoom_pan d _ _).1]
    · simp only [viewerStep, if_neg hlt]
      exact h
  | zoomIn =>
    show 1 ≤ s.currentZoom + 0.2
    have : (0 : Rat) ≤ 0.2 := by norm_num
    linarith
  | zoomOut => exact le_max_left 1 _
  | resetZoom => exact le_refl 1
  | toggleContrast => exact h
  | speedBtn k i =>
    rw [show (viewerStep d s (.speedBtn k i)) = setSpeed s k i from rfl,
      (setSpeed_fields s k i).2.1]
    exact h
  | mouseDown x y =>
    simp only [viewerStep]
    split
    · exact h
    · split
      · exact h
      · exact h
  | mouseMove x y =>
    simp only [viewerStep]
    split
    · exact h
    · split
      · exact h
      · exact h
  | mouseUp =>
    simp only [viewerStep]
    split
    · exact h
    · exact h

theorem foldl_zoom_ge (d : ExportData) (evs : List VEvent) :
    ∀ s : ViewerState, 1 ≤ s.currentZoom →
      1 ≤ (evs.foldl (viewerStep d) s).currentZoom := by
  induction evs with
  | nil => intro s h; exact h
  | cons e evs ih => intro s h; exact ih (viewerStep d s e) (step_zoom_ge d s e h)

/-- Claim C8: zoom stays at least 1 after every transition (in particular
under any sequence of `zoomOut` calls), `resetZoom` always yields zoom 1 and
pan (0,0), and every transition that changes the page index resets zoom to 1
and pan to (0,0), so zoom/pan state is not carried across pages. -/
theorem c8_zoom_floor (d : ExportData) (evs : List VEvent) (s : ViewerState) (e : VEvent) :
    1 ≤ (runViewer d evs).currentZoom
      ∧ ((viewerStep d s .resetZoom).currentZoom = 1
          ∧ (viewerStep d s .resetZoom).panX = 0 ∧ (viewerStep d s .resetZoom).panY = 0)
      ∧ ((viewerStep d s e).currentPageIndex ≠ s.currentPageIndex →
          (viewerStep d s e).currentZoom = 1
            ∧ (viewerStep d s e).panX = 0 ∧ (viewerStep d s e).panY = 0) := by
  refine ⟨?_, ⟨rfl, rfl, rfl⟩, ?_⟩
  · exact foldl_zoom_ge d evs (initViewer d) (le_of_eq (renderPage_zoom_pan d 0 initState).1.symm)
  · intro hne
    cases e with
    | clickPrev =>
      by_cases hpos : 0 < s.currentPageIndex
      · simp only [viewerStep, if_pos hpos]
        exact renderPage_zoom_pan d _ _
      · exfalso
        apply hne
        simp only [viewerStep, if_neg hpos]
    | clickNext =>
      by_cases hlt : s.currentPageIndex < d.pages.length - 1
      · simp only [viewerStep, if_pos hlt]
        exact renderPage_zoom_pan d _ _
      · exfalso
        apply hne
        simp only [viewerStep, if_neg hlt]
    | zoomIn => exact absurd rfl hne
    | zoomOut => exact absurd rfl hne
    | resetZoom => exact absurd rfl hne
    | toggleContrast => exact absurd rfl hne
    | speedBtn k i =>
      exact absurd ((setSpeed_fields s k i).1) hne
    | mouseDown x y =>
      exfalso
      apply hne
      simp only [viewerStep]
      split
      · rfl
      · split <;> rfl
    | mouseMove x y =>
      exfalso
      apply hne
      simp only [viewerStep]
      split
      · rfl
      · split <;> rfl
    | mouseUp =>
      exfalso
      apply hne
      simp only [viewerStep]
      split <;> rfl

/-- Witness for C8: zooming out twice from startup keeps zoom at 1 or above,
and a next-click that changes the page resets the zoom. -/
theorem c8_zoom_floor_witness :
    1 ≤ (runViewer demoData [.zoomOut, .zoomOut]).currentZoom
      ∧ (viewerStep demoData (initViewer demoData) .clickNext).currentPageIndex
          ≠ (initViewer demoData).currentPageIndex
      ∧ (viewerStep demoData (initViewer demoData) .clickNext).currentZoom = 1 := by
  obtain ⟨h1, _, h3⟩ :=
    c8_zoom_floor demoData [.zoomOut, .zoomOut] (initViewer demoData) .clickNext
  have hne : (viewerStep demoData (initViewer demoData) .clickNext).currentPageIndex
      ≠ (initViewer demoData).currentPageIndex := by decide
  exact ⟨h1, hne, (h3 hne).1⟩

/-- Claim C9: `setSpeed` on one audio element changes only that element's
playback rate and its own group's active marker; the rest of the viewer
state, and in particular every other audio element's rate and active
indicator, is unchanged. -/
theorem c9_rate_isolation (s : ViewerState) (k j : AudioKind) (i : Fin 3) (hjk : j ≠ k) :
    ((setSpeed s k i).currentPageIndex = s.currentPageIndex
      ∧ (setSpeed s k i).currentZoom = s.currentZoom
      ∧ (setSpeed s k i).panX = s.panX ∧ (setSpeed s k i).panY = s.panY)
    ∧ (∀ card', (setSpeed s k i).displayed = some card' →
        ∃ card, s.displayed = some card ∧ getComp card' j = getComp card j)
    ∧ (∀ card comp, s.displayed = some card → getComp card k = some comp →
        ∃ card', (setSpeed s k i).displayed = some card'
          ∧ getComp card' k = some ⟨rateOf i, i == 0, i == 1, i == 2⟩) := by
  obtain ⟨f1, f2, f3, f4, _, _, _⟩ := setSpeed_fields s k i
  refine ⟨⟨f1, f2, f3, f4⟩, ?_, ?_⟩
  · intro card' hc'
    unfold setSpeed at hc'
    split at hc'
    · exact ⟨card', hc', rfl⟩
    · rename_i card hd
      split at hc'
      · exact ⟨card', hc', rfl⟩
      · have hc2 : some (setComp card k
            { rate := rateOf i, actSlow := i == 0, actNormal := i == 1, actFast := i == 2 })
              = some card' := hc'
        simp only [Option.some.injEq] at hc2
        refine ⟨card, hd, ?_⟩
        rw [← hc2]
        exact getComp_setComp_other card k j _ hjk
  · intro card comp hd hcomp
    refine ⟨setComp card k
      { rate := rateOf i, actSlow := i == 0, actNormal := i == 1, actFast := i == 2 }, ?_, ?_⟩
    · unfold setSpeed
      rw [hd]
      show (match getComp card k with
        | none => s
        | some _ => { s with displayed := some (setComp card k
            { rate := rateOf i, actSlow := i == 0, actNormal := i == 1,
              actFast := i == 2 }) }).displayed = _
      rw [hcomp]
    · exact getComp_setComp_self card k _

/-- Witness for C9: setting the slow rate on the teacher audio of the demo
viewer's first page yields a card whose teacher element carries the new rate
and active marker. -/
theorem c9_rate_isolation_witness :
    AudioKind.dialogue ≠ AudioKind.teacher
      ∧ (initViewer demoData).displayed = some (mkCard demoEP1)
      ∧ getComp (mkCard demoEP1) AudioKind.teacher = some initAudio
      ∧ ∃ card', (setSpeed (initViewer demoData) AudioKind.teacher 0).displayed = some card'
          ∧ getComp card' AudioKind.teacher
              = some ⟨rateOf 0, (0 : Fin 3) == 0, (0 : Fin 3) == 1, (0 : Fin 3) == 2⟩ := by
  refine ⟨by decide, by decide, by decide, ?_⟩
  obtain ⟨_, _, h3⟩ :=
    c9_rate_isolation (initViewer demoData) AudioKind.teacher AudioKind.dialogue 0 (by decide)
  exact h3 (mkCard demoEP1) initAudio (by decide) (by decide)

end Digitalizer
